import Mathlib

/-
Shallow embedding of the easy-schedule repository (src/src/task.rs and
src/src/schdule.rs) for verifying its natural-language specification.

Modelling conventions:
  * time::Time is a wall-clock time of day with hour / minute / second /
    nanosecond fields; its derived ordering is lexicographic on the fields.
    Validity (hour < 24, minute < 60, second < 60, nano < 10^9) is enforced
    by every constructor in the crate, so it is carried here as a predicate
    used as a hypothesis where needed.
  * time::Date is a calendar date (year, month, day); its ordering is
    chronological, embedded through the standard civil-days conversion.
  * time::OffsetDateTime is a local calendar date plus wall time plus a
    fixed UTC offset in seconds; instant comparison subtracts the offset.
  * Rust machine integers become Nat / Int with explicit range checks where
    the source performs them (u64 / u8 / i32 parsing).
  * The driver loops of schdule.rs are modelled as pure functions from the
    relevant state (target instant, skip list, current time) to the list of
    observable events of one evaluation (sleeping, on_skip, on_time).
    Cancellation terminates a loop without callbacks and is orthogonal to
    every claim below, so the non-cancelled path is modelled.
-/

namespace EasySchedule

/-- Wall-clock time of day, mirroring time::Time (hour, minute, second,
nanosecond). -/
structure Time where
  hour : Nat
  minute : Nat
  second : Nat
  nano : Nat
deriving DecidableEq

/-- Validity invariant maintained by every time::Time constructor. -/
def Time.Valid (t : Time) : Prop :=
  t.hour < 24 ∧ t.minute < 60 ∧ t.second < 60 ∧ t.nano < 1000000000

instance (t : Time) : Decidable t.Valid := by
  unfold Time.Valid; infer_instance

/-- Lexicographic less-or-equal on the fields, mirroring the derived Ord of
time::Time. -/
def Time.ble (a b : Time) : Bool :=
  decide (a.hour < b.hour) ||
    (a.hour == b.hour && (decide (a.minute < b.minute) ||
      (a.minute == b.minute && (decide (a.second < b.second) ||
        (a.second == b.second && decide (a.nano ≤ b.nano))))))

/-- Total nanoseconds since midnight: the chronological reading of a wall
time. -/
def Time.toNanos (t : Time) : Nat :=
  (t.hour * 3600 + t.minute * 60 + t.second) * 1000000000 + t.nano

/-- Calendar date, mirroring time::Date (year, month 1..12, day 1..31). -/
structure Date where
  year : Int
  month : Nat
  day : Nat
deriving DecidableEq

/-- Leap-year test of the proleptic Gregorian calendar. -/
def isLeap (y : Int) : Bool :=
  y % 4 == 0 && (y % 100 != 0 || y % 400 == 0)

/-- Number of days in a month of a given year. -/
def daysInMonth (y : Int) (m : Nat) : Nat :=
  if m = 2 then (if isLeap y then 29 else 28)
  else if m = 4 ∨ m = 6 ∨ m = 9 ∨ m = 11 then 30
  else 31

/-- Days since 1970-01-01 of a civil date (standard days-from-civil
conversion, floor division). -/
def Date.toDays (d : Date) : Int :=
  let y : Int := if d.month ≤ 2 then d.year - 1 else d.year
  let m : Int := d.month
  let era : Int := Int.fdiv y 400
  let yoe : Int := y - era * 400
  let mp : Int := Int.emod (m + 9) 12
  let doy : Int := Int.fdiv (153 * mp + 2) 5 + (d.day : Int) - 1
  let doe : Int := yoe * 365 + Int.fdiv yoe 4 - Int.fdiv yoe 100 + doy
  era * 146097 + doe - 719468

/-- Chronological less-or-equal on dates, mirroring the Ord of time::Date. -/
def Date.ble (a b : Date) : Bool :=
  decide (a.toDays ≤ b.toDays)

/-- ISO weekday numbered from Monday (Monday = 1 ... Sunday = 7), mirroring
time::Weekday::number_from_monday of the local date.  1970-01-01 was a
Thursday. -/
def Date.weekdayFromMonday (d : Date) : Nat :=
  (Int.emod (d.toDays + 3) 7).toNat + 1

/-- Next calendar day. -/
def Date.succ (d : Date) : Date :=
  if d.day < daysInMonth d.year d.month then ⟨d.year, d.month, d.day + 1⟩
  else if d.month < 12 then ⟨d.year, d.month + 1, 1⟩
  else ⟨d.year + 1, 1, 1⟩

/-- time::OffsetDateTime with a fixed UTC offset in seconds: local calendar
date plus local wall time plus offset. -/
structure DateTime where
  date : Date
  time : Time
  offset : Int
deriving DecidableEq

/-- Absolute instant in nanoseconds (local reading minus the UTC offset);
OffsetDateTime comparison and subtraction act on this instant. -/
def DateTime.instantNanos (dt : DateTime) : Int :=
  dt.date.toDays * 86400000000000 + (dt.time.toNanos : Int)
    - dt.offset * 1000000000

/-- OffsetDateTime::replace_time: same date and offset, new wall time. -/
def DateTime.replaceTime (dt : DateTime) (t : Time) : DateTime :=
  { dt with time := t }

/-- Adding time::Duration::days(1) to an OffsetDateTime: with a fixed offset
and a valid wall time the local date advances by one calendar day and the
wall time is unchanged. -/
def DateTime.addDay (dt : DateTime) : DateTime :=
  { dt with date := dt.date.succ }

/-- The Skip enum of task.rs: per-timestamp skip predicates. -/
inductive Skip where
  | date (d : Date)
  | dateRange (start stop : Date)
  | day (days : List Nat)
  | dayRange (start stop : Nat)
  | time (t : Time)
  | timeRange (start stop : Time)
  | none
deriving DecidableEq

/-- Skip::is_skip of task.rs: whether the given timestamp is suppressed by
this rule. -/
def Skip.is_skip (s : Skip) (t : DateTime) : Bool :=
  match s with
  | .date d => t.date == d
  | .dateRange start stop => Date.ble start t.date && Date.ble t.date stop
  | .day days => days.contains t.date.weekdayFromMonday
  | .dayRange start stop =>
      decide (start ≤ t.date.weekdayFromMonday) &&
        decide (t.date.weekdayFromMonday ≤ stop)
  | .time st => t.time == st
  | .timeRange start stop =>
      if Time.ble start stop then
        Time.ble start t.time && Time.ble t.time stop
      else
        Time.ble start t.time || Time.ble t.time stop
  | .none => false

/-- The Task enum of task.rs (the schedule value).  The source constructor
named At is called atTime here because at is a reserved word in Lean. -/
inductive Task where
  | wait (seconds : Nat) (skip : Option (List Skip))
  | interval (seconds : Nat) (skip : Option (List Skip))
  | atTime (t : Time) (skip : Option (List Skip))
  | once (dt : DateTime) (skip : Option (List Skip))
deriving DecidableEq

/-- The manual PartialEq of Task in task.rs: same variant, same primary
value, same (order-sensitive) skip list. -/
def Task.beq (a b : Task) : Bool :=
  match a, b with
  | .wait x sa, .wait y sb => x == y && sa == sb
  | .interval x sa, .interval y sb => x == y && sa == sb
  | .atTime x sa, .atTime y sb => x == y && sa == sb
  | .once x sa, .once y sb => x == y && sa == sb
  | _, _ => false

/-- Observable events of one driver-loop evaluation in schdule.rs: entering
the timer sleep, invoking on_skip, invoking on_time. -/
inductive Event where
  | sleep
  | onSkip
  | onTime
deriving DecidableEq

/-- The skip decision written inline in each driver loop of schdule.rs:
if let Some(skip) = skip, the list is scanned with iter().any over is_skip
at the evaluation timestamp; an absent list never skips. -/
def skipDecision (skip : Option (List Skip)) (t : DateTime) : Bool :=
  match skip with
  | some rules => rules.any (fun s => s.is_skip t)
  | Option.none => false

/-- Scheduler::run_wait after its sleep: the skip rules are evaluated at the
freshly read current time; a match invokes on_skip, otherwise on_time, and
the loop terminates either way. -/
def runWait (skip : Option (List Skip)) (now : DateTime) : Event :=
  if skipDecision skip now then Event.onSkip else Event.onTime

/-- One cycle of Scheduler::run_interval after its sleep: the skip rules are
evaluated at the freshly read current time; a match invokes on_skip,
otherwise on_time, and the loop re-arms in both cases. -/
def runIntervalCycle (skip : Option (List Skip)) (now : DateTime) : Event :=
  if skipDecision skip now then Event.onSkip else Event.onTime

/-- get_next_time of schdule.rs: replace the wall time of now by the
At time; if that instant is before now, advance one day. -/
def get_next_time (now : DateTime) (t : Time) : DateTime :=
  let next := now.replaceTime t
  if next.instantNanos < now.instantNanos then next.addDay else next

/-- One cycle of Scheduler::run_at after its sleep: the skip rules are
evaluated at the precomputed target instant next; a match invokes on_skip,
otherwise on_time; in both branches the target advances by one day.  The
result is the event together with the next target. -/
def runAtCycle (skip : Option (List Skip)) (next : DateTime) :
    Event × DateTime :=
  if skipDecision skip next then (Event.onSkip, next.addDay)
  else (Event.onTime, next.addDay)

/-- Scheduler::run_once on the non-cancelled path: if the target is strictly
before now, on_skip immediately; otherwise, if the skip rules match at the
target instant, on_skip immediately without sleeping; otherwise sleep until
the target and invoke on_time.  The result lists the observable events in
order. -/
def runOnce (next : DateTime) (skip : Option (List Skip)) (now : DateTime) :
    List Event :=
  if next.instantNanos < now.instantNanos then [Event.onSkip]
  else if skipDecision skip next then [Event.onSkip]
  else [Event.sleep, Event.onTime]

/-- Single-quote character as a string, used to assemble the error messages
that task.rs builds with format! around quoted fragments. -/
def sq : String :=
  String.singleton (Char.ofNat 39)

/-- str::trim over the character list (ASCII inputs: char index equals byte
index throughout the parser). -/
def trim (l : List Char) : List Char :=
  ((l.dropWhile Char.isWhitespace).reverse.dropWhile Char.isWhitespace).reverse

/-- str::rfind of a single character: index of its last occurrence. -/
def rfindChar (l : List Char) (c : Char) : Option Nat :=
  match List.findIdx? (fun x => x == c) l.reverse with
  | some i => some (l.length - 1 - i)
  | Option.none => Option.none

/-- str::split_whitespace: maximal non-whitespace runs, in order. -/
def splitWS : List Char → List (List Char)
  | [] => []
  | c :: rest =>
      if c.isWhitespace then splitWS rest
      else
        match splitWS rest with
        | [] => [[c]]
        | w :: ws =>
            match rest with
            | [] => [[c]]
            | r :: _ =>
                if r.isWhitespace then [c] :: w :: ws else (c :: w) :: ws

/-- Value of a digit run (most significant first). -/
def digitsToNat (l : List Char) : Nat :=
  l.foldl (fun a c => a * 10 + (c.toNat - 48)) 0

/-- Nonempty all-digit run parsed to Nat, shared core of the integer
parsers. -/
def parseNatAll (l : List Char) : Option Nat :=
  if l.isEmpty then Option.none
  else if l.all Char.isDigit then some (digitsToNat l)
  else Option.none

/-- str::parse::<u64>: optional leading plus sign, digits, u64 range. -/
def parseU64 (l : List Char) : Option Nat :=
  let l := match l with
    | '+' :: rest => rest
    | _ => l
  match parseNatAll l with
  | some n => if n < 18446744073709551616 then some n else Option.none
  | Option.none => Option.none

/-- str::parse::<u8>: optional leading plus sign, digits, u8 range. -/
def parseU8 (l : List Char) : Option Nat :=
  let l := match l with
    | '+' :: rest => rest
    | _ => l
  match parseNatAll l with
  | some n => if n < 256 then some n else Option.none
  | Option.none => Option.none

/-- str::parse::<i32>: optional sign, digits, i32 range. -/
def parseI32 (l : List Char) : Option Int :=
  match l with
  | '-' :: rest =>
      match parseNatAll rest with
      | some n => if n ≤ 2147483648 then some (-(n : Int)) else Option.none
      | Option.none => Option.none
  | '+' :: rest =>
      match parseNatAll rest with
      | some n => if n ≤ 2147483647 then some ((n : Int)) else Option.none
      | Option.none => Option.none
  | _ =>
      match parseNatAll l with
      | some n => if n ≤ 2147483647 then some ((n : Int)) else Option.none
      | Option.none => Option.none

/-- Time::parse with the format description hour:minute — exactly two
zero-padded digits each, whole input consumed, then the component range
checks of Time construction (hour below 24, minute below 60). -/
def timeParse (l : List Char) : Option Time :=
  match l with
  | [h1, h2, ':', m1, m2] =>
      if h1.isDigit ∧ h2.isDigit ∧ m1.isDigit ∧ m2.isDigit then
        let h := digitsToNat [h1, h2]
        let m := digitsToNat [m1, m2]
        if h ≤ 23 ∧ m ≤ 59 then some ⟨h, m, 0, 0⟩ else Option.none
      else Option.none
  | _ => Option.none

/-- Month::try_from followed by Date::from_calendar_date: month 1..12, day
within the month, year within the supported range of the time crate. -/
def dateFromCalendar (y : Int) (m d : Nat) : Option Date :=
  if 1 ≤ m ∧ m ≤ 12 ∧ 1 ≤ d ∧ d ≤ daysInMonth y m ∧ -9999 ≤ y ∧ y ≤ 9999 then
    some ⟨y, m, d⟩
  else Option.none

/-- str::find of the two-character pattern dot-dot, first index. -/
def findDotDot : List Char → Option Nat
  | '.' :: '.' :: _ => some 0
  | _ :: rest => (findDotDot rest).map (fun i => i + 1)
  | [] => Option.none

/-- OffsetDateTime::parse with the once format description
year-month-day hour:minute:second offsethour (sign mandatory): fixed-width
digit fields, then the component range checks of the crate. -/
def dtParse (l : List Char) : Option DateTime :=
  match l with
  | [y1, y2, y3, y4, '-', mo1, mo2, '-', d1, d2, ' ',
     h1, h2, ':', mi1, mi2, ':', s1, s2, ' ', sg, o1, o2] =>
      if y1.isDigit ∧ y2.isDigit ∧ y3.isDigit ∧ y4.isDigit ∧
          mo1.isDigit ∧ mo2.isDigit ∧ d1.isDigit ∧ d2.isDigit ∧
          h1.isDigit ∧ h2.isDigit ∧ mi1.isDigit ∧ mi2.isDigit ∧
          s1.isDigit ∧ s2.isDigit ∧ (sg = '+' ∨ sg = '-') ∧
          o1.isDigit ∧ o2.isDigit then
        let year : Int := (digitsToNat [y1, y2, y3, y4] : Int)
        let month := digitsToNat [mo1, mo2]
        let day := digitsToNat [d1, d2]
        let h := digitsToNat [h1, h2]
        let mi := digitsToNat [mi1, mi2]
        let s := digitsToNat [s1, s2]
        let oh := digitsToNat [o1, o2]
        if h ≤ 23 ∧ mi ≤ 59 ∧ s ≤ 59 ∧ oh ≤ 23 then
          match dateFromCalendar year month day with
          | some dd =>
              some ⟨dd, ⟨h, mi, s, 0⟩,
                (if sg = '+' then (oh : Int) else -(oh : Int)) * 3600⟩
          | Option.none => Option.none
        else Option.none
      else Option.none
  | _ => Option.none

/-- Task::parse_single_skip of task.rs. -/
def Task.parse_single_skip (skipStr : List Char) : Except String Skip :=
  let s := trim skipStr
  let parts := splitWS s
  if parts.isEmpty then Except.error "Empty skip condition"
  else
    let p0 := parts.headD []
    if p0 = "weekday".data then
      if parts.length ≠ 2 then
        Except.error ("Invalid weekday format: " ++ sq ++ String.mk s ++ sq
          ++ ". Expected " ++ sq ++ "weekday N" ++ sq)
      else
        let p1 := parts.getD 1 []
        match parseU8 p1 with
        | Option.none =>
            Except.error ("Invalid weekday number: " ++ sq ++ String.mk p1 ++ sq)
        | some day =>
            if day < 1 ∨ 7 < day then
              Except.error ("Weekday must be between 1-7, got: " ++ toString day)
            else Except.ok (Skip.day [day])
    else if p0 = "date".data then
      if parts.length ≠ 2 then
        Except.error ("Invalid date format: " ++ sq ++ String.mk s ++ sq
          ++ ". Expected " ++ sq ++ "date YYYY-MM-DD" ++ sq)
      else
        let dateStr := parts.getD 1 []
        let dateParts := dateStr.splitOn '-'
        if dateParts.length ≠ 3 then
          Except.error ("Invalid date format: " ++ sq ++ String.mk dateStr ++ sq
            ++ ". Expected " ++ sq ++ "YYYY-MM-DD" ++ sq)
        else
          match parseI32 (dateParts.getD 0 []) with
          | Option.none =>
              Except.error ("Invalid year: " ++ sq
                ++ String.mk (dateParts.getD 0 []) ++ sq)
          | some year =>
              match parseU8 (dateParts.getD 1 []) with
              | Option.none =>
                  Except.error ("Invalid month: " ++ sq
                    ++ String.mk (dateParts.getD 1 []) ++ sq)
              | some month =>
                  match parseU8 (dateParts.getD 2 []) with
                  | Option.none =>
                      Except.error ("Invalid day: " ++ sq
                        ++ String.mk (dateParts.getD 2 []) ++ sq)
                  | some day =>
                      if month < 1 ∨ 12 < month then
                        Except.error ("Invalid month: " ++ toString month)
                      else
                        match dateFromCalendar year month day with
                        | Option.none =>
                            Except.error ("Invalid date: " ++ toString year
                              ++ "-" ++ toString month ++ "-" ++ toString day)
                        | some d => Except.ok (Skip.date d)
    else if p0 = "time".data then
      if parts.length ≠ 2 then
        Except.error ("Invalid time format: " ++ sq ++ String.mk s ++ sq
          ++ ". Expected " ++ sq ++ "time HH:MM..HH:MM" ++ sq)
      else
        let timeRange := parts.getD 1 []
        match findDotDot timeRange with
        | some i =>
            let startStr := timeRange.take i
            let endStr := timeRange.drop (i + 2)
            match timeParse startStr with
            | Option.none =>
                Except.error ("Invalid start time: " ++ sq
                  ++ String.mk startStr ++ sq)
            | some st =>
                match timeParse endStr with
                | Option.none =>
                    Except.error ("Invalid end time: " ++ sq
                      ++ String.mk endStr ++ sq)
                | some en => Except.ok (Skip.timeRange st en)
        | Option.none =>
            match timeParse timeRange with
            | Option.none =>
                Except.error ("Invalid time: " ++ sq
                  ++ String.mk timeRange ++ sq)
            | some t => Except.ok (Skip.time t)
    else
      Except.error ("Unknown skip type: " ++ sq ++ String.mk p0 ++ sq
        ++ ". Supported types: weekday, date, time")

/-- Loop body of Task::parse_skip_list: trim each comma-separated part,
ignore empty parts, parse the rest in order, first error wins. -/
def Task.parse_skip_parts : List (List Char) → Except String (List Skip)
  | [] => Except.ok []
  | p :: rest =>
      let p := trim p
      if p.isEmpty then Task.parse_skip_parts rest
      else
        match Task.parse_single_skip p with
        | Except.error e => Except.error e
        | Except.ok k =>
            match Task.parse_skip_parts rest with
            | Except.error e => Except.error e
            | Except.ok ks => Except.ok (k :: ks)

/-- Task::parse_skip_list of task.rs. -/
def Task.parse_skip_list (listStr : List Char) : Except String (List Skip) :=
  let l := trim listStr
  if l.isEmpty then Except.ok []
  else Task.parse_skip_parts (l.splitOn ',')

/-- Task::parse_skip_conditions of task.rs. -/
def Task.parse_skip_conditions (skipStr : List Char) :
    Except String (List Skip) :=
  let s := trim skipStr
  if s.headD ' ' == '[' && s.getLastD ' ' == ']' then
    Task.parse_skip_list ((s.drop 1).take (s.length - 2))
  else
    match Task.parse_single_skip s with
    | Except.error e => Except.error e
    | Except.ok k => Except.ok [k]

/-- Task::parse_arguments of task.rs: split at the first comma into the
primary argument and the optional skip specification. -/
def Task.parse_arguments (argsIn : List Char) :
    Except String (List Char × Option (List Skip)) :=
  let args := trim argsIn
  match List.findIdx? (fun c => c == ',') args with
  | some i =>
      let primary := trim (args.take i)
      let skipPart := trim (args.drop (i + 1))
      match Task.parse_skip_conditions skipPart with
      | Except.error e => Except.error e
      | Except.ok l => Except.ok (primary, some l)
  | Option.none => Except.ok (args, Option.none)

/-- Task::parse of task.rs: the non-strict descriptor parser. -/
def Task.parse (str : String) : Except String Task :=
  let s := trim str.data
  match List.findIdx? (fun c => c == '(') s with
  | Option.none =>
      Except.error ("Invalid task format: " ++ sq ++ String.mk s ++ sq
        ++ ". Expected format like " ++ sq ++ "wait(10)" ++ sq)
  | some openP =>
      match rfindChar s ')' with
      | Option.none =>
          Except.error ("Missing closing parenthesis in: " ++ sq
            ++ String.mk s ++ sq)
      | some closeP =>
          if closeP ≤ openP then
            Except.error ("Invalid parentheses in: " ++ sq ++ String.mk s ++ sq)
          else
            let functionName := trim (s.take openP)
            let args := trim ((s.take closeP).drop (openP + 1))
            match Task.parse_arguments args with
            | Except.error e => Except.error e
            | Except.ok (primary, skips) =>
                if functionName = "wait".data then
                  match parseU64 primary with
                  | Option.none =>
                      Except.error ("Invalid seconds value " ++ sq
                        ++ String.mk primary ++ sq ++ " in wait("
                        ++ String.mk primary ++ ")")
                  | some n => Except.ok (Task.wait n skips)
                else if functionName = "interval".data then
                  match parseU64 primary with
                  | Option.none =>
                      Except.error ("Invalid seconds value " ++ sq
                        ++ String.mk primary ++ sq ++ " in interval("
                        ++ String.mk primary ++ ")")
                  | some n => Except.ok (Task.interval n skips)
                else if functionName = "at".data then
                  match timeParse primary with
                  | Option.none =>
                      Except.error ("Invalid time format " ++ sq
                        ++ String.mk primary ++ sq ++ " in at("
                        ++ String.mk primary ++ "). Expected format: HH:MM")
                  | some t => Except.ok (Task.atTime t skips)
                else if functionName = "once".data then
                  match dtParse primary with
                  | Option.none =>
                      Except.error ("Invalid datetime format " ++ sq
                        ++ String.mk primary ++ sq ++ " in once("
                        ++ String.mk primary
                        ++ "). Expected format: YYYY-MM-DD HH:MM:SS +HH")
                  | some dt => Except.ok (Task.once dt skips)
                else
                  Except.error ("Unknown task type " ++ sq
                    ++ String.mk functionName ++ sq
                    ++ ". Supported types: wait, interval, at, once")

/-- The expansion of the task! macro arm (wait seconds, weekday day) in
task.rs: Task::Wait(seconds, Some(vec![Skip::Day(vec![day])])).  The macro
performs no range validation on the weekday. -/
def taskMacroWaitWeekday (seconds : Nat) (day : Nat) : Task :=
  Task.wait seconds (some [Skip.day [day]])

/-- Sample timestamps used by witnesses: Saturday 2024-06-08 and the
following Monday 2024-06-10, in the default UTC+8 offset of the
scheduler. -/
def sampleNoon : DateTime :=
  ⟨⟨2024, 6, 8⟩, ⟨12, 0, 0, 0⟩, 28800⟩

/-- Saturday 2024-06-08 at 11:00, one hour before sampleNoon. -/
def sampleMorning : DateTime :=
  ⟨⟨2024, 6, 8⟩, ⟨11, 0, 0, 0⟩, 28800⟩

/-- Monday 2024-06-10 at 12:00, the Monday following sampleNoon. -/
def sampleMonNoon : DateTime :=
  ⟨⟨2024, 6, 10⟩, ⟨12, 0, 0, 0⟩, 28800⟩

/-- For valid wall times the lexicographic field ordering of time::Time
coincides with chronological ordering by nanoseconds since midnight. -/
theorem Time.ble_iff (a b : Time) (ha : a.Valid) (hb : b.Valid) :
    Time.ble a b = true ↔ a.toNanos ≤ b.toNanos := by
  obtain ⟨ha1, ha2, ha3, ha4⟩ := ha
  obtain ⟨hb1, hb2, hb3, hb4⟩ := hb
  simp only [Time.ble, Time.toNanos, Bool.or_eq_true, Bool.and_eq_true,
    decide_eq_true_eq, beq_iff_eq]
  omega

/-- C1: a TimeOfDayRange skip rule has the dual semantics: when the start
is at most the end, the rule matches exactly the wall times between them,
boundaries included; when the start exceeds the end, the rule matches
exactly the wall times at or after the start or at or before the end
(overnight wraparound). -/
theorem timeRange_dual_semantics (s e : Time) (dt : DateTime)
    (hs : s.Valid) (he : e.Valid) (ht : dt.time.Valid) :
    (s.toNanos ≤ e.toNanos →
      ((Skip.timeRange s e).is_skip dt = true ↔
        s.toNanos ≤ dt.time.toNanos ∧ dt.time.toNanos ≤ e.toNanos))
    ∧ (e.toNanos < s.toNanos →
      ((Skip.timeRange s e).is_skip dt = true ↔
        s.toNanos ≤ dt.time.toNanos ∨ dt.time.toNanos ≤ e.toNanos)) := by
  have hse := Time.ble_iff s e hs he
  have hsc := Time.ble_iff s dt.time hs ht
  have hce := Time.ble_iff dt.time e ht he
  constructor
  · intro hle
    have hb : Time.ble s e = true := hse.mpr hle
    simp only [Skip.is_skip, hb, if_true, Bool.and_eq_true, hsc, hce]
  · intro hlt
    have hb : Time.ble s e = false := by
      cases h : Time.ble s e
      · rfl
      · exact absurd (hse.mp h) (by omega)
    simp only [Skip.is_skip, hb, Bool.false_eq_true, if_false,
      Bool.or_eq_true, hsc, hce]

/-- Witness for C1: exactly 09:00 matches TimeOfDayRange(09:00, 17:00),
obtained from the same-day direction of the dual-semantics theorem. -/
theorem timeRange_dual_semantics_witness :
    (Skip.timeRange ⟨9, 0, 0, 0⟩ ⟨17, 0, 0, 0⟩).is_skip
      ⟨⟨2024, 6, 8⟩, ⟨9, 0, 0, 0⟩, 28800⟩ = true :=
  ((timeRange_dual_semantics ⟨9, 0, 0, 0⟩ ⟨17, 0, 0, 0⟩
      ⟨⟨2024, 6, 8⟩, ⟨9, 0, 0, 0⟩, 28800⟩
      (by decide) (by decide) (by decide)).1 (by decide)).mpr (by decide)

/-- C10: a DayRange skip rule whose start exceeds its end matches no
timestamp at all — a weekday range has no wraparound semantics. -/
theorem dayRange_inverted_matches_nothing (start stop : Nat) (dt : DateTime)
    (h : stop < start) :
    (Skip.dayRange start stop).is_skip dt = false := by
  simp only [Skip.is_skip, ← Bool.decide_and, decide_eq_false_iff_not]
  omega

/-- Witness for C10: the inverted weekday range 5..2 rejects a Saturday
timestamp. -/
theorem dayRange_inverted_witness :
    (Skip.dayRange 5 2).is_skip sampleNoon = false :=
  dayRange_inverted_matches_nothing 5 2 sampleNoon (by decide)

/-- C6: a WeekdaySet skip rule matches exactly when the ISO weekday number
from Monday of the local date is a member of the set; Saturday 2024-06-08
matches the set containing 6 and 7 while the following Monday 2024-06-10
does not, and those dates have ISO numbers 6 and 1 respectively. -/
theorem weekday_set_membership (days : List Nat) (dt : DateTime) :
    ((Skip.day days).is_skip dt = days.contains dt.date.weekdayFromMonday)
    ∧ (Skip.day [6, 7]).is_skip sampleNoon = true
    ∧ (Skip.day [6, 7]).is_skip sampleMonNoon = false
    ∧ sampleNoon.date.weekdayFromMonday = 6
    ∧ sampleMonNoon.date.weekdayFromMonday = 1 :=
  ⟨rfl, by decide, by decide, by decide, by decide⟩

/-- C3: in every driver loop the effective skip decision is the logical OR
of the rules evaluated at the fire timestamp: the fire is skipped exactly
when some rule in the list matches, and an absent or empty list never
skips (on_time fires), for every schedule kind. -/
theorem skip_list_or_semantics (skip : Option (List Skip)) (t next : DateTime) :
    (skipDecision skip t = true ↔ ∃ s ∈ skip.getD [], s.is_skip t = true)
    ∧ (runWait skip t = Event.onSkip ↔ skipDecision skip t = true)
    ∧ (runIntervalCycle skip t = Event.onSkip ↔ skipDecision skip t = true)
    ∧ ((runAtCycle skip next).1 = Event.onSkip ↔ skipDecision skip next = true)
    ∧ runWait Option.none t = Event.onTime
    ∧ runWait (some []) t = Event.onTime
    ∧ runIntervalCycle Option.none t = Event.onTime
    ∧ runIntervalCycle (some []) t = Event.onTime
    ∧ (runAtCycle Option.none next).1 = Event.onTime
    ∧ (runAtCycle (some []) next).1 = Event.onTime
    ∧ (¬ next.instantNanos < t.instantNanos →
        runOnce next Option.none t = [Event.sleep, Event.onTime]
        ∧ runOnce next (some []) t = [Event.sleep, Event.onTime]) := by
  refine ⟨?_, ?_, ?_, ?_, ?_, ?_, ?_, ?_, ?_, ?_, ?_⟩
  · cases skip <;> simp [skipDecision, List.any_eq_true]
  · cases h : skipDecision skip t <;> simp [runWait, h]
  · cases h : skipDecision skip t <;> simp [runIntervalCycle, h]
  · cases h : skipDecision skip next <;> simp [runAtCycle, h]
  · simp [runWait, skipDecision]
  · simp [runWait, skipDecision]
  · simp [runIntervalCycle, skipDecision]
  · simp [runIntervalCycle, skipDecision]
  · simp [runAtCycle, skipDecision]
  · simp [runAtCycle, skipDecision]
  · intro hn
    constructor <;> simp [runOnce, if_neg hn, skipDecision]

/-- Witness for C3: with no skip list, a Wait fire at a sample time is not
skipped, and a future Once with no list sleeps and fires on_time. -/
theorem skip_list_or_semantics_witness :
    runWait Option.none sampleNoon = Event.onTime
    ∧ runOnce sampleNoon Option.none sampleMorning
        = [Event.sleep, Event.onTime] :=
  ⟨(skip_list_or_semantics Option.none sampleNoon sampleNoon).2.2.2.2.1,
    ((skip_list_or_semantics Option.none sampleMorning sampleNoon
      ).2.2.2.2.2.2.2.2.2.2 (by decide)).1⟩

/-- C2 counterexample: run_once compares the target with strict less-than,
so a Once schedule whose target instant equals the current time (hence is
less than or equal to it) does not invoke on_skip at all — with no matching
skip rule it sleeps zero seconds and invokes on_time once. -/
theorem once_at_now_counterexample :
    sampleNoon.instantNanos ≤ sampleNoon.instantNanos
    ∧ runOnce sampleNoon Option.none sampleNoon = [Event.sleep, Event.onTime]
    ∧ (runOnce sampleNoon Option.none sampleNoon).count Event.onSkip = 0
    ∧ (runOnce sampleNoon Option.none sampleNoon).count Event.onTime = 1 :=
  ⟨le_refl _, by decide, by decide, by decide⟩

/-- C2 amended: for every Once schedule whose target instant is strictly
less than the current time, the driver invokes on_skip exactly once and
never invokes on_time. -/
theorem once_past_skips (next : DateTime) (skip : Option (List Skip))
    (now : DateTime) (h : next.instantNanos < now.instantNanos) :
    runOnce next skip now = [Event.onSkip]
    ∧ (runOnce next skip now).count Event.onSkip = 1
    ∧ (runOnce next skip now).count Event.onTime = 0 := by
  have h1 : runOnce next skip now = [Event.onSkip] := by
    simp only [runOnce, if_pos h]
  refine ⟨h1, ?_, ?_⟩ <;> rw [h1] <;> decide

/-- Witness for the amended C2: a Once target one hour in the past yields
exactly the single on_skip event. -/
theorem once_past_skips_witness :
    runOnce sampleMorning Option.none sampleNoon = [Event.onSkip] :=
  (once_past_skips sampleMorning Option.none sampleNoon (by decide)).1

/-- C4: the first At target keeps the requested wall time; it is today
when the requested time of day has not yet passed and tomorrow otherwise;
and every cycle of the At loop — skipped or fired — advances the target by
exactly one calendar day. -/
theorem at_first_target_and_advance (now : DateTime) (t : Time)
    (skip : Option (List Skip)) (next : DateTime) :
    ((get_next_time now t).time = t)
    ∧ (now.time.toNanos ≤ t.toNanos → get_next_time now t = now.replaceTime t)
    ∧ (t.toNanos < now.time.toNanos →
        get_next_time now t = (now.replaceTime t).addDay)
    ∧ ((runAtCycle skip next).2 = next.addDay) := by
  have hcond : ((now.replaceTime t).instantNanos < now.instantNanos) ↔
      t.toNanos < now.time.toNanos := by
    simp only [DateTime.replaceTime, DateTime.instantNanos]
    omega
  refine ⟨?_, ?_, ?_, ?_⟩
  · simp only [get_next_time]
    split
    · rfl
    · rfl
  · intro h
    have hne : ¬ ((now.replaceTime t).instantNanos < now.instantNanos) := by
      rw [hcond]; omega
    simp only [get_next_time, if_neg hne]
  · intro h
    have hy : (now.replaceTime t).instantNanos < now.instantNanos := by
      rw [hcond]; omega
    simp only [get_next_time, if_pos hy]
  · cases h : skipDecision skip next <;> simp [runAtCycle, h]

/-- Witness for C4: at noon, an At time of 13:00 targets the same day, and
a skipped cycle still advances the target to the next day. -/
theorem at_first_target_and_advance_witness :
    get_next_time sampleNoon ⟨13, 0, 0, 0⟩
        = sampleNoon.replaceTime ⟨13, 0, 0, 0⟩
    ∧ (runAtCycle (some [Skip.day [6]]) sampleNoon).2 = sampleNoon.addDay :=
  ⟨(at_first_target_and_advance sampleNoon ⟨13, 0, 0, 0⟩ Option.none
      sampleNoon).2.1 (by decide),
    (at_first_target_and_advance sampleNoon ⟨13, 0, 0, 0⟩
      (some [Skip.day [6]]) sampleNoon).2.2.2⟩

/-- C5: for a Once schedule with a strictly future target, the skip rules
are evaluated at the target instant before any sleep: when they match,
on_skip fires immediately with no sleep event; when they do not, the loop
sleeps and then invokes on_time. -/
theorem once_future_target_eval (next : DateTime) (skip : Option (List Skip))
    (now : DateTime) (h : now.instantNanos < next.instantNanos) :
    (skipDecision skip next = true → runOnce next skip now = [Event.onSkip])
    ∧ (skipDecision skip next = false →
        runOnce next skip now = [Event.sleep, Event.onTime]) := by
  have hn : ¬ next.instantNanos < now.instantNanos := by omega
  constructor <;> intro hd <;> simp [runOnce, if_neg hn, hd]

/-- Witness for C5: a future Saturday target with a Saturday skip rule is
skipped immediately with no sleep. -/
theorem once_future_target_eval_witness :
    runOnce sampleNoon (some [Skip.day [6]]) sampleMorning = [Event.onSkip] :=
  (once_future_target_eval sampleNoon (some [Skip.day [6]]) sampleMorning
    (by decide)).1 (by decide)

/-- C7: parsing the descriptor wait(10, [weekday 6, weekday 7]) succeeds
with the Schedule value built directly as Wait(10, [Day([6]), Day([7])]),
and the two are equal under the PartialEq of Task (same variant, same
primary value, same order-sensitive skip list). -/
theorem parse_roundtrip_wait :
    Task.parse "wait(10, [weekday 6, weekday 7])"
      = Except.ok (Task.wait 10 (some [Skip.day [6], Skip.day [7]]))
    ∧ Task.beq (Task.wait 10 (some [Skip.day [6], Skip.day [7]]))
        (Task.wait 10 (some [Skip.day [6], Skip.day [7]])) = true :=
  ⟨rfl, rfl⟩

/-- C8: each of the three malformed descriptors fails with a descriptive
error naming the offending fragment — the out-of-range weekday 8, the
invalid calendar month 13, and the unparsable start time 25:00 — and the
total parse function returns an error rather than diverging. -/
theorem parse_malformed_errors :
    Task.parse "wait(10, weekday 8)"
      = Except.error "Weekday must be between 1-7, got: 8"
    ∧ Task.parse "wait(10, date 2024-13-01)"
      = Except.error "Invalid month: 13"
    ∧ Task.parse "wait(10, time 25:00..26:00)"
      = Except.error ("Invalid start time: " ++ sq ++ "25:00" ++ sq) :=
  ⟨rfl, rfl, rfl⟩

/-- C9 counterexample: the task! macro arm for a weekday skip performs no
range validation, so the out-of-range weekday 9 is accepted silently on
that construction path — it produces a WeekdaySet value whose member
violates the 1..7 invariant and which matches nothing. -/
theorem day_out_of_range_constructed :
    taskMacroWaitWeekday 10 9 = Task.wait 10 (some [Skip.day [9]])
    ∧ ¬ (9 : Nat) ≤ 7
    ∧ (Skip.day [9]).is_skip sampleNoon = false :=
  ⟨rfl, by decide, by decide⟩

/-- C9 amended: on the string-parse construction path every WeekdaySet
that parse_single_skip produces has all members in 1..7; out-of-range
weekdays are rejected there with a construction-time error.  Direct enum
construction and the task! macro perform no such validation. -/
theorem parse_single_skip_day_invariant (s : List Char) (l : List Nat)
    (h : Task.parse_single_skip s = Except.ok (Skip.day l)) :
    ∀ d ∈ l, 1 ≤ d ∧ d ≤ 7 := by
  intro d hd
  simp only [Task.parse_single_skip] at h
  repeat' split at h
  all_goals simp_all
  subst h
  simp only [List.mem_singleton] at hd
  omega

/-- Witness for the amended C9: the descriptor fragment weekday 6 parses
to a WeekdaySet whose single member lies in 1..7. -/
theorem parse_single_skip_day_invariant_witness :
    Task.parse_single_skip ("weekday 6".data) = Except.ok (Skip.day [6])
    ∧ (1 ≤ 6 ∧ 6 ≤ 7) :=
  ⟨rfl, parse_single_skip_day_invariant ("weekday 6".data) [6] rfl 6
    (by simp)⟩

end EasySchedule
